import Mathlib

/-!
# Verification of the code-server self-update service (`src/node/update.ts`)

This file gives a shallow embedding of the update service implemented by
`UpdateService` in `src/node/update.ts` and proves/refutes the specified
properties of its version comparison, release-name construction, check and
download state transitions, error handling and temporary-path cleanup.

Modelling conventions:

* Asynchronous collaborators (the HTTP request service, the filesystem
  primitives `pfs.mkdirp`/`pfs.unlink`/`pfs.move`/`pfs.rimraf`, the file
  writer, the archive `extract` routine and the `ldd --version` subprocess
  probe) are parameters of the embedded functions: each call site receives the
  collaborator's outcome (success value or thrown error) as an argument, and
  the embedding records the calls it makes as an event trace.
* JavaScript `Promise` objects are modelled explicitly because the source
  twice uses an un-awaited `async` result in a boolean position
  (`this.isLatestVersion(update)` and `pfs.exists(newBinary)`): a `Promise`
  is an object and therefore always truthy in JavaScript, which the model
  mirrors with `Promise.jsTruthy`.
* `pkg.codeServerVersion` (the running version), `process.argv[0]` (the
  running executable's path), `os.platform()`, `os.arch()` and the fixed
  temp root `tmpdir` (imported from `vs/server/src/node/util`, outside the
  file under analysis) are parameters.
* Machine integers do not occur; `parseInt` results are modelled as
  `Option Int` (`none` is JavaScript's `NaN`).
-/

/-- A thrown JavaScript `Error` value, reduced to the two observations the
source makes of it: `error.message` and `error.toString()`. -/
structure JsError where
  message : String
  toStr : String
deriving Repr, DecidableEq

/-- A JavaScript `Promise` wrapping an eventual value.  The source twice
tests an un-awaited `Promise` in a boolean position; an object is always
truthy, so its JS truthiness is `true` regardless of the wrapped value. -/
structure Promise (α : Type) where
  result : α
deriving Repr, DecidableEq

/-- JS truthiness of a `Promise` object: always `true` (it is an object, not
the value it will eventually resolve to). -/
def Promise.jsTruthy {α : Type} (_p : Promise α) : Bool := true

/-- The whitespace JavaScript `parseInt` strips from the head of its input
(ECMA-262 `StrWhiteSpaceChar`: WhiteSpace ∪ LineTerminator): tab, LF,
vertical tab, form feed, CR, space, NBSP, Ogham space mark, the U+2000–200A
spaces, LINE/PARAGRAPH SEPARATOR, narrow no-break space, medium mathematical
space, ideographic space and the BOM. -/
def isJsWhitespace (c : Char) : Bool :=
  c == ' ' || c == '\t' || c == '\n' || c == '\r' ||
  c == '\u000B' || c == '\u000C' ||
  c == '\u00A0' || c == '\u1680' ||
  (0x2000 ≤ c.toNat && c.toNat ≤ 0x200A) ||
  c == '\u2028' || c == '\u2029' || c == '\u202F' || c == '\u205F' ||
  c == '\u3000' || c == '\uFEFF'

/-- The decimal digits at the head of a character list (JS `parseInt` stops
at the first character that is not a digit of its radix). -/
def leadingDigits : List Char → List Char
  | [] => []
  | c :: cs => if c.isDigit then c :: leadingDigits cs else []

/-- Numeric value of a decimal digit list, most significant digit first. -/
def digitsVal (ds : List Char) : Nat :=
  ds.foldl (fun n c => n * 10 + (c.toNat - '0'.toNat)) 0

/-- Is `c` a hexadecimal digit (`0-9`, `a-f`, `A-F`)? -/
def isHexDigitChar (c : Char) : Bool :=
  c.isDigit || (97 ≤ c.toNat && c.toNat ≤ 102) || (65 ≤ c.toNat && c.toNat ≤ 70)

/-- The hexadecimal digits at the head of a character list. -/
def leadingHexDigits : List Char → List Char
  | [] => []
  | c :: cs => if isHexDigitChar c then c :: leadingHexDigits cs else []

/-- Numeric value of one hexadecimal digit. -/
def hexDigitVal (c : Char) : Nat :=
  if c.isDigit then c.toNat - 48
  else if 97 ≤ c.toNat then c.toNat - 97 + 10
  else c.toNat - 65 + 10

/-- Numeric value of a hexadecimal digit list, most significant digit
first. -/
def hexDigitsVal (ds : List Char) : Nat :=
  ds.foldl (fun n c => n * 16 + hexDigitVal c) 0

/-- JavaScript radix-less `parseInt(s)` (ECMA-262 `parseInt` with `radix`
undefined): strip leading `StrWhiteSpace`, read an optional sign, then — if
the remainder starts with `0x` or `0X` — strip that prefix and read the
longest prefix of hexadecimal digits, otherwise read the longest prefix of
decimal digits; `NaN` (here `none`) when no digit of the chosen radix is
found, so `parseInt("0x")` and `parseInt("0xg")` are `NaN` while
`parseInt("0xff")` is `255`.  (JS numbers are floats and lose precision on
very long digit strings; the exact `Option Int` value stands in for them —
the program only compares the two parses of related strings and tests them
for `NaN`.) -/
def parseIntJs (s : String) : Option Int :=
  let cs := s.data.dropWhile isJsWhitespace
  let signAndRest : Int × List Char :=
    match cs with
    | '-' :: r => (-1, r)
    | '+' :: r => (1, r)
    | r => (1, r)
  match signAndRest.2 with
  | '0' :: x :: r2 =>
    if x == 'x' || x == 'X' then
      let ds := leadingHexDigits r2
      if ds.isEmpty then none
      else some (signAndRest.1 * (hexDigitsVal ds : Int))
    else
      let ds := leadingDigits signAndRest.2
      if ds.isEmpty then none
      else some (signAndRest.1 * (digitsVal ds : Int))
  | rest =>
    let ds := leadingDigits rest
    if ds.isEmpty then none
    else some (signAndRest.1 * (digitsVal ds : Int))

/-- Does `p` occur at the head of `l`? -/
def headMatches : List Char → List Char → Bool
  | [], _ => true
  | _ :: _, [] => false
  | p :: ps, c :: cs => p == c && headMatches ps cs

/-- Does `pat` occur as a contiguous run inside `l`? -/
def occursIn (pat : List Char) : List Char → Bool
  | [] => headMatches pat []
  | c :: cs => headMatches pat (c :: cs) || occursIn pat cs

/-- JavaScript `s.indexOf(pat) !== -1`: `pat` occurs as a substring of `s`. -/
def strContains (s pat : String) : Bool :=
  occursIn pat.data s.data

/-- Node's `path.join(root, name)` for the joins performed by the update
service: a root joined with a relative name, rendered `root ++ "/" ++ name`.
(Node additionally collapses `.`/`..` segments; that normalisation is not
modelled — the names built here append plain suffixes to a version string.) -/
def pathJoin (a b : String) : String := a ++ "/" ++ b

/-- The JSON body fetched from the release feed (`interface IUpdate`):
the sole field is the release's `name`. -/
structure IUpdate where
  name : String
deriving Repr, DecidableEq

/-- `isLatestVersion(latest?)` from the source.  The nullable `latest`
argument is the first parameter; when it is `null` the source fetches
`getLatestVersion()`, whose outcome is supplied here as `fetched`; the
running version `pkg.codeServerVersion` is `currentVersion`.

Source:
```
if (!latest) { latest = await this.getLatestVersion(); }
if (latest) {
  const latestMajor = parseInt(latest.name);
  const currentMajor = parseInt(pkg.codeServerVersion);
  return !isNaN(latestMajor) && !isNaN(currentMajor) &&
    currentMajor <= latestMajor && latest.name === pkg.codeServerVersion;
}
return true;
```
A `NaN` on either side makes the conjunction `false`. -/
def isLatestVersion (latest fetched : Option IUpdate) (currentVersion : String) : Bool :=
  let effective : Option IUpdate :=
    match latest with
    | none => fetched
    | some l => some l
  match effective with
  | some l =>
    match parseIntJs l.name, parseIntJs currentVersion with
    | some latestMajor, some currentMajor =>
      decide (currentMajor ≤ latestMajor) && decide (l.name = currentVersion)
    | _, _ => false
  | none => true

/-- The `context` argument threaded through `checkForUpdates`.  The source
only ever observes it through `!!context` (its JS truthiness) and stores it
in the `CheckingForUpdates` state, so it is modelled by that truthiness. -/
abbrev Context := Bool

/-- `UpdateType` from `vs/platform/update/common/update`; this service always
uses `UpdateType.Archive`. -/
inductive UpdateType where
  | Setup
  | Archive
  | Snap
deriving Repr, DecidableEq

/-- The update payload carried by the non-idle states
(`{ version, productVersion }`). -/
structure UpdateInfo where
  version : String
  productVersion : String
deriving Repr, DecidableEq

/-- The `State` variants of `vs/platform/update/common/update` as this
service constructs them: `Idle(updateType, error?)`,
`CheckingForUpdates(context)`, `AvailableForDownload(update)`,
`Updating(update)`, `Ready(update)`. -/
inductive State where
  | Idle (updateType : UpdateType) (error : Option String)
  | CheckingForUpdates (context : Context)
  | AvailableForDownload (update : UpdateInfo)
  | Updating (update : UpdateInfo)
  | Ready (update : UpdateInfo)
deriving Repr, DecidableEq

/-- The `StateType` discriminant. -/
inductive StateType where
  | Idle
  | CheckingForUpdates
  | AvailableForDownload
  | Updating
  | Ready
deriving Repr, DecidableEq

/-- `state.type`. -/
def State.type : State → StateType
  | .Idle _ _ => .Idle
  | .CheckingForUpdates _ => .CheckingForUpdates
  | .AvailableForDownload _ => .AvailableForDownload
  | .Updating _ => .Updating
  | .Ready _ => .Ready

/-- `buildUpdateFeedUrl()`: the fixed release-feed URL. -/
def buildUpdateFeedUrl : String :=
  "https://api.github.com/repos/cdr/code-server/releases/latest"

/-- An HTTP request issued through the request service: the URL and the
`User-Agent` header, when one is set. -/
structure HttpRequest where
  url : String
  userAgent : Option String
deriving Repr, DecidableEq

/-- The request `getLatestVersion()` issues: the feed URL with
`User-Agent: code-server`. -/
def latestVersionRequest : HttpRequest :=
  { url := buildUpdateFeedUrl, userAgent := some "code-server" }

/-- Result of `onRequestError`: the errors handed to `logService.error` and
the state installed by `setState`. -/
structure ErrorOutcome where
  logged : List JsError
  state : State
deriving Repr, DecidableEq

/-- `onRequestError(error, showNotification?)` from the source:
```
this.logService.error(error);
const message = showNotification ? (error.message || error.toString()) : undefined;
this.setState(State.Idle(UpdateType.Archive, message));
```
JS `a || b` yields `b` when `a` is the empty string (falsy). -/
def onRequestError (error : JsError) (showNotification : Bool) : ErrorOutcome :=
  let message : Option String :=
    if showNotification then
      some (if error.message = "" then error.toStr else error.message)
    else none
  { logged := [error], state := State.Idle UpdateType.Archive message }

/-- Observable outcome of one `doCheckForUpdates` call: the final state, the
HTTP requests issued, the errors logged, and every state passed to
`setState`, in order. -/
structure CheckOutcome where
  finalState : State
  requests : List HttpRequest
  logged : List JsError
  statesSet : List State
deriving Repr, DecidableEq

/-- `doCheckForUpdates(context)` from the source, with the current state and
the outcome of the single `getLatestVersion()` round trip as parameters
(`Except.error e` models the fetch throwing `e`; `Except.ok none` models a
`null` JSON body):
```
if (this.state.type !== StateType.Idle) { return Promise.resolve(); }
this.setState(State.CheckingForUpdates(context));
try {
  const update = await this.getLatestVersion();
  if (!update || this.isLatestVersion(update)) {
    this.setState(State.Idle(UpdateType.Archive));
  } else {
    this.setState(State.AvailableForDownload({ version: update.name, productVersion: update.name }));
  }
} catch (error) { this.onRequestError(error, !!context); }
```
Note the branch condition: `this.isLatestVersion(update)` is an `async`
method invoked WITHOUT `await`, so the value tested is the `Promise` object
itself, which is always truthy — modelled faithfully via `Promise.jsTruthy`. -/
def doCheckForUpdates (current : State) (context : Context)
    (fetch : Except JsError (Option IUpdate)) (currentVersion : String) : CheckOutcome :=
  if current.type ≠ StateType.Idle then
    { finalState := current, requests := [], logged := [], statesSet := [] }
  else
    let checking := State.CheckingForUpdates context
    match fetch with
    | .error e =>
      let o := onRequestError e context
      { finalState := o.state, requests := [latestVersionRequest],
        logged := o.logged, statesSet := [checking, o.state] }
    | .ok update =>
      match update with
      | none =>
        let idle := State.Idle UpdateType.Archive none
        { finalState := idle, requests := [latestVersionRequest],
          logged := [], statesSet := [checking, idle] }
      | some u =>
        if (Promise.mk (isLatestVersion (some u) none currentVersion)).jsTruthy then
          let idle := State.Idle UpdateType.Archive none
          { finalState := idle, requests := [latestVersionRequest],
            logged := [], statesSet := [checking, idle] }
        else
          let avail := State.AvailableForDownload { version := u.name, productVersion := u.name }
          { finalState := avail, requests := [latestVersionRequest],
            logged := [], statesSet := [checking, avail] }

/-- The resolved stdout/stderr of the `ldd --version` probe subprocess. -/
structure ExecResult where
  stdout : String
  stderr : String
deriving Repr, DecidableEq

/-- `buildReleaseName(release)` from the source, with `os.platform()`,
the probe outcome and `os.arch()` as parameters (`Except.error e` models the
promisified `cp.exec("ldd --version")` rejecting with `e`):
```
let target = os.platform();
if (target === "linux") {
  const result = await util.promisify(cp.exec)("ldd --version")
    .catch((error) => ({ stderr: error.message, stdout: "" }));
  if (result.stderr.indexOf("musl") !== -1 || result.stdout.indexOf("musl") !== -1) {
    target = "alpine";
  }
}
let arch = os.arch();
if (arch === "x64") { arch = "x86_64"; }
return `code-server${release}-${target}-${arch}`;
```
The `.catch` turns a rejection into `{ stderr: error.message, stdout: "" }`,
so the subsequent `musl` scan also inspects a failed probe's error message. -/
def buildReleaseName (release : String) (platform : String)
    (probe : Except JsError ExecResult) (arch : String) : String :=
  let target : String :=
    if platform = "linux" then
      let result : ExecResult :=
        match probe with
        | .ok r => r
        | .error e => { stderr := e.message, stdout := "" }
      if strContains result.stderr "musl" || strContains result.stdout "musl" then
        "alpine"
      else platform
    else platform
  let arch' : String := if arch = "x64" then "x86_64" else arch
  "code-server" ++ release ++ "-" ++ target ++ "-" ++ arch'

/-- A filesystem or network call made during `doDownloadUpdate`, in call
order.  An event records that the call was made; whether it succeeded is
given by the environment (a failed call is the last event before the catch
handler runs). -/
inductive FsEvent where
  | mkdirp (p : String)
  | request (url : String)
  | writeFile (p : String)
  | extractArchive (src : String) (dest : String)
  | existsCheck (p : String)
  | unlink (p : String)
  | move (src : String) (dest : String)
  | rimraf (p : String)
deriving Repr, DecidableEq

/-- The slice of the HTTP response context that `doDownloadUpdate` inspects:
the `content-encoding` response header. -/
structure RequestContext where
  contentEncoding : Option String
deriving Repr, DecidableEq

/-- Ambient process facts and collaborator outcomes for one
`doDownloadUpdate` attempt.  For each fallible awaited call, `none` /
`Except.ok` means the call succeeds and `some e` / `Except.error e` means it
throws `e`.  `binaryExists` is whether a file is present at the expected
binary path (the resolution of the `pfs.exists` promise). -/
structure DownloadEnv where
  platform : String
  arch : String
  probe : Except JsError ExecResult
  tmpRoot : String
  argv0 : String
  mkdirpErr : Option JsError
  requestResult : Except JsError RequestContext
  writeFileErr : Option JsError
  extractErr : Option JsError
  binaryExists : Bool
  unlinkErr : Option JsError
  moveErr : Option JsError
deriving Repr

/-- The two temporary paths of a download attempt (source lines
`const downloadPath = path.join(tmpdir, \x7b...\x7d-archive)` and
`const extractPath = path.join(tmpdir, state.update.version)`):
the downloaded archive's path and the extraction destination. -/
def archivePaths (tmpRoot version : String) : String × String :=
  (pathJoin tmpRoot (version ++ "-archive"), pathJoin tmpRoot version)

/-- The asset URL: `.zip` for the darwin target, `.tar.gz` otherwise. -/
def downloadUrl (version releaseName target : String) : String :=
  "https://github.com/cdr/code-server/releases/download/"
    ++ version ++ "/" ++ releaseName
    ++ "." ++ (if target = "darwin" then "zip" else "tar.gz")

/-- The error thrown when the extracted archive holds no binary
(`throw new Error("No code-server binary in extracted archive")`). -/
def noBinaryError : JsError :=
  { message := "No code-server binary in extracted archive",
    toStr := "Error: No code-server binary in extracted archive" }

/-- The `try` block of `doDownloadUpdate`: the events emitted, the error
thrown (if any), and whether the gunzip re-wrap of the response stream was
applied.  Follows the source statement by statement:
```
await pfs.mkdirp(tmpdir);
const context = await this.requestService.request({ url }, CancellationToken.None);
if (target !== "darwin" && context.res.headers["content-encoding"] !== "gzip") {
  ... context.stream = toVSBufferReadableStream(stream.pipe(zlib.createGunzip()));
}
await this.fileService.writeFile(URI.file(downloadPath), context.stream);
await extract(downloadPath, extractPath, undefined, CancellationToken.None);
const newBinary = path.join(extractPath, releaseName, "code-server");
if (!pfs.exists(newBinary)) { throw new Error("No code-server binary in extracted archive"); }
await pfs.unlink(process.argv[0]);
await pfs.move(newBinary, process.argv[0]);
this.setState(State.Ready(state.update));
```
`pfs.exists(newBinary)` is NOT awaited: the tested value is the `Promise`
object, always truthy, so the `throw` is unreachable — modelled faithfully
via `Promise.jsTruthy`. -/
def downloadAttempt (update : UpdateInfo) (env : DownloadEnv) :
    List FsEvent × Option JsError × Bool :=
  let target := env.platform
  let releaseName := buildReleaseName update.version env.platform env.probe env.arch
  let url := downloadUrl update.version releaseName target
  let downloadPath := (archivePaths env.tmpRoot update.version).1
  let extractPath := (archivePaths env.tmpRoot update.version).2
  let e0 := [FsEvent.mkdirp env.tmpRoot]
  match env.mkdirpErr with
  | some err => (e0, some err, false)
  | none =>
    let e1 := e0 ++ [FsEvent.request url]
    match env.requestResult with
    | .error err => (e1, some err, false)
    | .ok ctx =>
      let wrapped := (target != "darwin") && (ctx.contentEncoding != some "gzip")
      let e2 := e1 ++ [FsEvent.writeFile downloadPath]
      match env.writeFileErr with
      | some err => (e2, some err, wrapped)
      | none =>
        let e3 := e2 ++ [FsEvent.extractArchive downloadPath extractPath]
        match env.extractErr with
        | some err => (e3, some err, wrapped)
        | none =>
          let newBinary := pathJoin extractPath (pathJoin releaseName "code-server")
          let e4 := e3 ++ [FsEvent.existsCheck newBinary]
          if !(Promise.mk env.binaryExists).jsTruthy then
            (e4, some noBinaryError, wrapped)
          else
            let e5 := e4 ++ [FsEvent.unlink env.argv0]
            match env.unlinkErr with
            | some err => (e5, some err, wrapped)
            | none =>
              let e6 := e5 ++ [FsEvent.move newBinary env.argv0]
              match env.moveErr with
              | some err => (e6, some err, wrapped)
              | none => (e6, none, wrapped)

/-- Observable outcome of one `doDownloadUpdate` attempt. -/
structure DownloadOutcome where
  finalState : State
  events : List FsEvent
  logged : List JsError
  statesSet : List State
  gunzipApplied : Bool
deriving Repr, DecidableEq

/-- `doDownloadUpdate(state)` from the source: `setState(Updating)`, then the
`try` block (`downloadAttempt`), the `catch` routing any thrown error to
`onRequestError(error, true)`, and the unconditional final cleanup
`await Promise.all([downloadPath, extractPath].map((p) => pfs.rimraf(p)))`. -/
def doDownloadUpdate (update : UpdateInfo) (env : DownloadEnv) : DownloadOutcome :=
  let res := downloadAttempt update env
  let downloadPath := (archivePaths env.tmpRoot update.version).1
  let extractPath := (archivePaths env.tmpRoot update.version).2
  let cleanup := [FsEvent.rimraf downloadPath, FsEvent.rimraf extractPath]
  match res.2.1 with
  | some e =>
    let o := onRequestError e true
    { finalState := o.state, events := res.1 ++ cleanup, logged := o.logged,
      statesSet := [State.Updating update, o.state], gunzipApplied := res.2.2 }
  | none =>
    { finalState := State.Ready update, events := res.1 ++ cleanup, logged := [],
      statesSet := [State.Updating update, State.Ready update],
      gunzipApplied := res.2.2 }

/-- Scans an event trace left to right: `true` iff no `move` targeting
`argv0` occurs before an `unlink` of `argv0` (once `argv0` has been
unlinked, later moves onto it are allowed). -/
def unlinkBeforeMove (argv0 : String) : List FsEvent → Bool
  | [] => true
  | FsEvent.unlink p :: rest =>
    if p == argv0 then true else unlinkBeforeMove argv0 rest
  | FsEvent.move _ dest :: rest =>
    if dest == argv0 then false else unlinkBeforeMove argv0 rest
  | _ :: rest => unlinkBeforeMove argv0 rest

/-- The architecture segment as the specification words it: the runtime
architecture with `x64` normalised to `x86_64`, all others unchanged. -/
def archSegment (arch : String) : String :=
  if arch = "x64" then "x86_64" else arch

/-- The platform segment as the specification words it, for a probe that
ran: the host OS name, overridden to `alpine` exactly when the OS is
`linux` and the probe's stdout or stderr contains `musl`. -/
def targetSegment (platform : String) (r : ExecResult) : String :=
  if platform = "linux" ∧ (strContains r.stderr "musl" ∨ strContains r.stdout "musl") then
    "alpine"
  else platform

/-- The release-name format exactly as the claim words it:
`"<product>-<version>-<platform>-<arch>"`, four `-`-separated segments with
a separator between the product name and the version. -/
def claimedReleaseName (release platform : String) (r : ExecResult) (arch : String) : String :=
  "code-server" ++ "-" ++ release ++ "-" ++ targetSegment platform r ++ "-" ++ archSegment arch

/-- The release-name format the code actually produces, i.e. the claimed
format amended to drop the separator between the product name and the
version: `"<product><version>-<platform>-<arch>"`. -/
def amendedReleaseName (release platform : String) (r : ExecResult) (arch : String) : String :=
  "code-server" ++ release ++ "-" ++ targetSegment platform r ++ "-" ++ archSegment arch

/-- A concrete `doDownloadUpdate` environment in which every collaborator
call succeeds but no file exists at the expected binary path after
extraction. -/
def missingBinaryEnv : DownloadEnv :=
  { platform := "linux", arch := "x64", probe := Except.ok ⟨"", "glibc 2.31"⟩,
    tmpRoot := "/tmp/code-server-update", argv0 := "/usr/local/bin/code-server",
    mkdirpErr := none, requestResult := Except.ok ⟨none⟩, writeFileErr := none,
    extractErr := none, binaryExists := false, unlinkErr := none, moveErr := none }

/-- A rejection of the `ldd --version` probe whose error message carries the
command's stderr — exactly what `cp.exec` produces on Alpine, where musl's
`ldd` prints its version banner to stderr and exits non-zero. -/
def muslProbeFailure : JsError :=
  { message := "Command failed: ldd --version musl libc (x86_64) Version 1.1.24",
    toStr := "Error: Command failed: ldd --version" }


/-!
## Theorems
-/

/-- C1: the claim says a successful check fetching a release whose name
differs from the running version transitions to `AvailableForDownload`.
The code cannot: `this.isLatestVersion(update)` is not awaited, the tested
`Promise` object is truthy, so the success path always returns to `Idle`.
Evaluated at the failing input (state `Idle`, fetched release `9.9.9`,
running version `1.0.0`): the final state is `Idle` with no message and
`AvailableForDownload` is never set. -/
theorem doCheckForUpdates_newer_release_stays_idle :
    (doCheckForUpdates (State.Idle UpdateType.Archive none) false
        (Except.ok (some ⟨"9.9.9"⟩)) "1.0.0").finalState
      = State.Idle UpdateType.Archive none
    ∧ ("9.9.9" : String) ≠ "1.0.0"
    ∧ State.AvailableForDownload ⟨"9.9.9", "9.9.9"⟩
        ∉ (doCheckForUpdates (State.Idle UpdateType.Archive none) false
            (Except.ok (some ⟨"9.9.9"⟩)) "1.0.0").statesSet := by
  refine ⟨rfl, by decide, by decide⟩

/-- C2 counterexample: the claim says equal version strings always make
`isLatestVersion` return `true` regardless of the leading-integer parse.
With the textually equal, unparseable strings `"dev"`/`"dev"` the code
returns `false`, because `!isNaN(parseInt(...))` fails on both sides. -/
theorem isLatestVersion_equal_unparseable_false :
    isLatestVersion (some ⟨"dev"⟩) none "dev" = false := by
  rfl

/-- C2 amended: for equal version strings whose leading-integer parse
succeeds, `isLatestVersion` returns `true` (the parse fails on either side
makes it `false` even for equal strings). -/
theorem isLatestVersion_equal_parsable (v : String) (fetched : Option IUpdate)
    (h : (parseIntJs v).isSome) :
    isLatestVersion (some ⟨v⟩) fetched v = true := by
  obtain ⟨n, hn⟩ := Option.isSome_iff_exists.mp h
  simp [isLatestVersion, hn]

/-- Witness for `isLatestVersion_equal_parsable` at `v = "1.2.3"`. -/
theorem isLatestVersion_equal_parsable_witness :
    isLatestVersion (some ⟨"1.2.3"⟩) none "1.2.3" = true :=
  isLatestVersion_equal_parsable "1.2.3" none (by decide)

/-- C3: the claim says a missing binary after extraction fails the attempt
with the "no binary" error before the swap.  The code cannot detect it:
`pfs.exists(newBinary)` is not awaited, the tested `Promise` is truthy, so
the `throw` is unreachable.  Evaluated at the failing input (every
collaborator succeeds, no file at the binary path): nothing is logged, the
unlink of the running executable still happens, and the attempt ends in
`Ready` — though the two temporary paths are indeed removed afterward. -/
theorem doDownloadUpdate_missing_binary_not_detected :
    (doDownloadUpdate ⟨"9.9.9", "9.9.9"⟩ missingBinaryEnv).logged = []
    ∧ (doDownloadUpdate ⟨"9.9.9", "9.9.9"⟩ missingBinaryEnv).finalState
        = State.Ready ⟨"9.9.9", "9.9.9"⟩
    ∧ FsEvent.unlink "/usr/local/bin/code-server"
        ∈ (doDownloadUpdate ⟨"9.9.9", "9.9.9"⟩ missingBinaryEnv).events := by
  refine ⟨rfl, rfl, by decide⟩

/-- C4: in every download attempt, whatever the collaborators' outcomes, no
`move` onto the running executable's path occurs before that path has been
unlinked: the swap deletes first, then moves. -/
theorem doDownloadUpdate_unlink_precedes_move (update : UpdateInfo) (env : DownloadEnv) :
    unlinkBeforeMove env.argv0 (doDownloadUpdate update env).events = true := by
  rcases env with ⟨p, a, pr, t, av, mk, rq, wf, ex, be, ul, mv⟩
  cases mk <;> cases rq <;> cases wf <;> cases ex <;> cases ul <;> cases mv <;>
    simp [doDownloadUpdate, downloadAttempt, unlinkBeforeMove, Promise.jsTruthy]

/-- C5 counterexample: the claim's format has a separator between the
product name and the version (`"<product>-<version>-..."`); the code
produces `` `code-server${release}-...` `` with no separator.  At version
`"1.2.3"` on a darwin/x64 host the two differ. -/
theorem buildReleaseName_claimed_format_fails :
    buildReleaseName "1.2.3" "darwin" (Except.ok ⟨"", ""⟩) "x64"
      ≠ claimedReleaseName "1.2.3" "darwin" ⟨"", ""⟩ "x64" := by
  decide

/-- C5 amended: for every version, platform, probe result and architecture,
`buildReleaseName` produces `"<product><version>-<platform>-<arch>"` (no
separator between product and version), with the platform overridden to
`alpine` exactly when the OS is `linux` and the probe's stdout or stderr
contains `musl`, and `x64` normalised to `x86_64`. -/
theorem buildReleaseName_amended_format (release platform : String)
    (r : ExecResult) (arch : String) :
    buildReleaseName release platform (Except.ok r) arch
      = amendedReleaseName release platform r arch := by
  unfold buildReleaseName amendedReleaseName targetSegment archSegment
  by_cases hp : platform = "linux" <;>
    by_cases h1 : strContains r.stderr "musl" <;>
    by_cases h2 : strContains r.stdout "musl" <;>
    simp [hp, h1, h2]

/-- C6: a check that starts while the state is not `Idle` issues no HTTP
request, logs nothing, sets no state and leaves the state unchanged. -/
theorem doCheckForUpdates_noop_when_not_idle (current : State) (context : Context)
    (fetch : Except JsError (Option IUpdate)) (currentVersion : String)
    (h : current.type ≠ StateType.Idle) :
    doCheckForUpdates current context fetch currentVersion
      = { finalState := current, requests := [], logged := [], statesSet := [] } := by
  unfold doCheckForUpdates
  simp [h]

/-- Witness for `doCheckForUpdates_noop_when_not_idle` at the `Updating`
state. -/
theorem doCheckForUpdates_noop_witness :
    doCheckForUpdates (State.Updating ⟨"9.9.9", "9.9.9"⟩) false (Except.ok none) "1.0.0"
      = { finalState := State.Updating ⟨"9.9.9", "9.9.9"⟩, requests := [],
          logged := [], statesSet := [] } :=
  doCheckForUpdates_noop_when_not_idle _ _ _ _ (by decide)

/-- C7: for every error and notification flag, `onRequestError` logs exactly
that error and installs an `Idle` state that carries a message if and only
if the flag is set. -/
theorem onRequestError_idle_message_iff (e : JsError) (notifyUser : Bool) :
    (onRequestError e notifyUser).logged = [e]
    ∧ ∃ m : Option String,
        (onRequestError e notifyUser).state = State.Idle UpdateType.Archive m
        ∧ (m.isSome ↔ notifyUser = true) := by
  cases notifyUser <;> exact ⟨rfl, _, rfl, by simp⟩

/-- C8: whatever the collaborators' outcomes, the event trace of a download
attempt ends with the removal of the archive download path and of the
extraction path — the cleanup runs unconditionally, after success and after
every failure alike. -/
theorem doDownloadUpdate_cleanup_always (update : UpdateInfo) (env : DownloadEnv) :
    ∃ es, (doDownloadUpdate update env).events
      = es ++ [FsEvent.rimraf (archivePaths env.tmpRoot update.version).1,
               FsEvent.rimraf (archivePaths env.tmpRoot update.version).2] := by
  refine ⟨(downloadAttempt update env).1, ?_⟩
  rcases h : (downloadAttempt update env).2.1 with _ | e <;>
    simp [doDownloadUpdate, h]

/-- C9 counterexample: the claim says a probe failure always falls through
to the default (no-override) label.  The `.catch` substitutes the error's
message for the probe's stderr, so a failure whose message contains `musl`
— precisely what happens on Alpine, where `ldd --version` exits non-zero —
yields the `alpine` label, not the default `linux` one. -/
theorem buildReleaseName_probe_failure_overrides :
    buildReleaseName "1.0.0" "linux" (Except.error muslProbeFailure) "x64"
      = "code-server1.0.0-alpine-x86_64"
    ∧ ("code-server1.0.0-alpine-x86_64" : String) ≠ "code-server1.0.0-linux-x86_64" := by
  exact ⟨rfl, by decide⟩

/-- C9 amended: `buildReleaseName` never raises from the probe — every
probe rejection still yields a release name, computed by substituting the
error's message for the probe's stderr; the default (no-override) label
results exactly when that message does not contain `musl`. -/
theorem buildReleaseName_probe_failure_handling (release : String) (e : JsError)
    (arch : String) :
    buildReleaseName release "linux" (Except.error e) arch
      = "code-server" ++ release ++ "-"
        ++ (if strContains e.message "musl" then "alpine" else "linux")
        ++ "-" ++ archSegment arch := by
  unfold buildReleaseName archSegment
  have h0 : strContains "" "musl" = false := rfl
  by_cases h : strContains e.message "musl" <;> simp [h, h0]

/-- C10: for every temp root and version string, the archive download path
`<tmpRoot>/<version>-archive` and the extraction path `<tmpRoot>/<version>`
of the same attempt are distinct, so writing the archive can never
overwrite the extraction destination. -/
theorem archivePaths_distinct (tmpRoot version : String) :
    (archivePaths tmpRoot version).1 ≠ (archivePaths tmpRoot version).2 := by
  unfold archivePaths pathJoin
  intro h
  have hlen := congrArg String.length h
  have h8 : ("-archive" : String).length = 8 := rfl
  simp [String.length_append, h8] at hlen

/-- Witness for `archivePaths_distinct` at a concrete root and version. -/
theorem archivePaths_distinct_witness :
    (archivePaths "/tmp/code-server-update" "1.0.0").1
      ≠ (archivePaths "/tmp/code-server-update" "1.0.0").2 :=
  archivePaths_distinct "/tmp/code-server-update" "1.0.0"
